import Mathlib

set_option maxRecDepth 10000

/-!
# Verification of the AI recommendation core (`modules/ai_recommendation.py`)

Shallow embedding of the content-based recommender: tokenization,
TF-IDF indexing, cosine-similarity ranking, result formatting, and the
category-filter fallback.  Python dicts (which iterate in insertion
order) are modelled as association lists, Python floats as real numbers,
and fallible dictionary accesses (`d[k]`) as `Except`.
-/

namespace AIRec

/-! ## Tokenizer (`_tokenize`) -/

/-- The whitespace class of Python's `\s` / `str.split()`, restricted to
the ASCII characters that can actually occur here. -/
def pyIsWs (c : Char) : Bool :=
  c == ' ' || c == '\t' || c == '\n' || c == '\x0d' || c == '\x0b' || c == '\x0c'

/-- A character survives `re.sub(r'[^a-z0-9\s]', '', text)` iff it is a
lowercase letter, a digit, or whitespace. -/
def keepChar (c : Char) : Bool :=
  ('a' ≤ c && c ≤ 'z') || ('0' ≤ c && c ≤ '9') || pyIsWs c

/-- Helper for `pyWords`: walks the character list, accumulating the
current word (reversed) in `cur`, flushing it at each whitespace run. -/
def wordsAux : List Char → List Char → List (List Char)
  | [], cur => if cur.isEmpty then [] else [cur.reverse]
  | c :: cs, cur =>
    if pyIsWs c then
      if cur.isEmpty then wordsAux cs [] else cur.reverse :: wordsAux cs []
    else
      wordsAux cs (c :: cur)

/-- Python's `str.split()` (no separator): split on whitespace runs,
discarding empty chunks. -/
def pyWords (l : List Char) : List (List Char) := wordsAux l []

/-- The fixed stop-word set of `_tokenize`. -/
def stop_words : List String :=
  ["the", "a", "an", "and", "or", "but", "in", "on", "at", "to",
   "for", "of", "with", "by", "is", "are", "was", "were"]

/-- `_tokenize`: lowercase, strip every character outside `[a-z0-9\s]`,
split on whitespace, drop stop words. -/
def tokenize (text : String) : List String :=
  ((pyWords ((text.toList.map Char.toLower).filter keepChar)).map fun w =>
    String.mk w).filter fun w => decide (w ∉ stop_words)

/-! ## Catalog model -/

/-- One destination record.  `type`, `sustainability_features` and
`description` are optional keys of the underlying Python dict (a present
but non-list `type` behaves like a missing one in `_prepare_corpus`);
`name` and `eco_score` are always present in the catalog. -/
structure Entry where
  name : String
  type : Option (List String)
  sustainability_features : Option (List String)
  description : Option String
  eco_score : Int
deriving Repr, DecidableEq

/-- A catalog: a Python dict `id ↦ entry`, modelled as an association
list in insertion order (dict keys are necessarily distinct). -/
abbrev Catalog := List (String × Entry)

/-! ## Corpus builder (`_prepare_corpus`) -/

/-- The `text_parts` list built for one entry: name twice, the category
tag list twice, the sustainability features once, the description once;
missing optional fields contribute nothing (resp. the empty string). -/
def docParts (e : Entry) : List String :=
  [e.name, e.name] ++ e.type.getD [] ++ e.type.getD []
    ++ e.sustainability_features.getD [] ++ [e.description.getD ""]

/-- `" ".join(text_parts)`. -/
def docText (e : Entry) : String := String.intercalate " " (docParts e)

/-- The `_prepare_corpus` loop: returns `(corpus, doc_ids)` built by
appending one document text and one id per catalog entry. -/
def prepareCorpus (cat : Catalog) : List String × List String :=
  cat.foldl (fun acc p => (acc.1 ++ [docText p.2], acc.2 ++ [p.1])) ([], [])

/-- `self.corpus`. -/
def corpusOf (cat : Catalog) : List String := (prepareCorpus cat).1

/-- `self.doc_ids`. -/
def docIdsOf (cat : Catalog) : List String := (prepareCorpus cat).2

/-! ## Indexer (`_compute_tfidf`), discrete part -/

/-- The per-document distinct-token sets (`set(self._tokenize(doc))`),
as deduplicated lists. -/
def idxVocabs (corpus : List String) : List (List String) :=
  corpus.map fun d => (tokenize d).dedup

/-- The document-frequency counter: `df[t]` after `df.update(tokens)`
has run over every document's token set. -/
def dfCount (vocabs : List (List String)) (t : String) : ℕ :=
  vocabs.foldl (fun n toks => n + if t ∈ toks then 1 else 0) 0

/-- The key set of the `df` counter (hence of `self.idf`): every term
occurring in at least one document. -/
def idxKeys (corpus : List String) : List String :=
  (idxVocabs corpus).flatten.dedup

/-- `total_terms = len(tokens) if tokens else 1`. -/
def totalTerms (tokens : List String) : ℕ :=
  if tokens.isEmpty then 1 else tokens.length

/-! ## Indexer, real-valued part

Python floats are modelled as real numbers; `math.log` is `Real.log`,
`math.sqrt` is `Real.sqrt`. -/

/-- The idf table `self.idf`, as its lookup function with the
`.get(term, 0)` default: `idf[t] = log(1 + N / (df[t] + 1))` for every
key `t` of the `df` counter, `0` for absent terms. -/
noncomputable def idfOf (corpus : List String) (t : String) : ℝ :=
  if t ∈ idxKeys corpus then
    Real.log (1 + (corpus.length : ℝ) / ((dfCount (idxVocabs corpus) t : ℝ) + 1))
  else 0

/-- A TF-IDF vector (`vec = {term: (count/total) * idf[term]}`) as its
lookup function: a term absent from `tokens` has count `0`, hence
score `0`, matching an absent dict key contributing nothing. -/
noncomputable def tfidfVec (idf : String → ℝ) (tokens : List String) (t : String) : ℝ :=
  ((tokens.count t : ℝ) / (totalTerms tokens : ℝ)) * idf t

/-- `sum(score ** 2 for score in vec.values())`, the support being the
dict's key list. -/
noncomputable def vecNormSq (v : String → ℝ) (support : List String) : ℝ :=
  (support.map fun t => v t ^ 2).sum

/-- The TF-IDF vector of the document with text `d`. -/
noncomputable def docVec (corpus : List String) (d : String) (t : String) : ℝ :=
  tfidfVec (idfOf corpus) (tokenize d) t

/-- `self.doc_norms[id]`: the Euclidean norm of the document vector,
summing over the document's distinct tokens (its dict keys). -/
noncomputable def docNorm (corpus : List String) (d : String) : ℝ :=
  Real.sqrt (vecNormSq (docVec corpus d) (tokenize d).dedup)

/-! ## Query matcher -/

/-- The key list of the query vector dict built by `_vectorize_query`:
distinct query tokens that are present in `self.idf`. -/
def qSupport (corpus : List String) (query : String) : List String :=
  (tokenize query).dedup.filter fun t => t ∈ idxKeys corpus

/-- `_vectorize_query` as a lookup function: in-vocabulary terms get
`(count/total) * idf[term]`, others are absent (score `0`). -/
noncomputable def queryVec (corpus : List String) (query : String) (t : String) : ℝ :=
  if t ∈ idxKeys corpus then
    ((tokenize query).count t : ℝ) / (totalTerms (tokenize query) : ℝ) * idfOf corpus t
  else 0

/-- `query_norm = sqrt(sum(score ** 2 for score in query_vec.values()))`. -/
noncomputable def queryNorm (corpus : List String) (query : String) : ℝ :=
  Real.sqrt (vecNormSq (queryVec corpus query) (qSupport corpus query))

/-- The dot-product loop of `recommend`: iterate over the query vector's
keys, a term also present in the document vector contributing
`q_score * dest_vec[term]`. -/
noncomputable def dotProd (corpus : List String) (query d : String) : ℝ :=
  ((qSupport corpus query).map fun t =>
    if t ∈ tokenize d then queryVec corpus query t * docVec corpus d t else 0).sum

/-- Cosine similarity of the document with text `d` against the query:
`dot / (query_norm * dest_norm)` when `dest_norm > 0`, else `0`. -/
noncomputable def simOf (corpus : List String) (query d : String) : ℝ :=
  if docNorm corpus d > 0 then
    dotProd corpus query d / (queryNorm corpus query * docNorm corpus d)
  else 0

/-- The `scores` list of `recommend`: one `(dest_id, similarity)` pair
per document, in corpus order (`self.tf_vectors` iterates in insertion
order, i.e. in `doc_ids` order). -/
noncomputable def scoresOf (corpus ids : List String) (query : String) :
    List (String × ℝ) :=
  (ids.zip corpus).map fun p => (p.1, simOf corpus query p.2)

/-- `scores.sort(key=lambda x: x[1], reverse=True)`: a stable sort,
descending on the similarity component. -/
noncomputable def sortedScoresOf (corpus ids : List String) (query : String) :
    List (String × ℝ) :=
  (scoresOf corpus ids query).mergeSort fun a b => decide (b.2 ≤ a.2)

/-! ## Result formatting -/

/-- A result record as emitted by `recommend` / `get_suggestions`. -/
structure ResultRec where
  id : String
  name : String
  match_score : ℝ
  type : List String
  eco_score : Int
  description : String

/-- Python 3 `round` on a real argument: round half to even. -/
noncomputable def pyRound (x : ℝ) : ℤ :=
  if Int.fract x = 1 / 2 then (if Even ⌊x⌋ then ⌊x⌋ else ⌊x⌋ + 1) else round x

/-- `round(x, 1)`: one-decimal rounding. -/
noncomputable def pyRound1 (x : ℝ) : ℝ := (pyRound (x * 10) : ℝ) / 10

/-- Python dict access `self.destinations[dest_id]`: `KeyError` when the
key is absent. -/
def dictGet (cat : Catalog) (k : String) : Except String Entry :=
  match cat.find? fun p => p.1 == k with
  | some p => .ok p.2
  | none => .error ("KeyError: " ++ k)

/-- Building one result dict in `recommend`'s final loop.  The value
expressions are evaluated in literal order, so a missing `type` key
raises before a missing `description` does. -/
noncomputable def formatResult (cat : Catalog) (p : String × ℝ) :
    Except String ResultRec := do
  let dest ← dictGet cat p.1
  match dest.type with
  | none => .error "KeyError: type"
  | some ty =>
    match dest.description with
    | none => .error "KeyError: description"
    | some desc =>
      .ok { id := p.1, name := dest.name, match_score := pyRound1 (p.2 * 100),
            type := ty, eco_score := dest.eco_score, description := desc }

/-- `recommend(query, top_k)`: vectorize the query, return `[]` on a
zero query norm, score every document, stable-sort descending, slice to
`top_k`, keep similarities strictly above `0.05`, format. -/
noncomputable def recommend (cat : Catalog) (query : String) (top_k : ℕ := 3) :
    Except String (List ResultRec) :=
  if queryNorm (corpusOf cat) query = 0 then .ok []
  else
    (((sortedScoresOf (corpusOf cat) (docIdsOf cat) query).take top_k).filter
      fun p => decide (p.2 > 0.05)).mapM (formatResult cat)

/-- Building one suggestion dict in `get_suggestions`; the loop body
runs only when `context_type in data.get('type', [])`, so `type` is
present there, but a missing `description` raises. -/
noncomputable def formatSuggestion (p : String × Entry) : Except String ResultRec :=
  match p.2.type with
  | none => .error "KeyError: type"
  | some ty =>
    match p.2.description with
    | none => .error "KeyError: description"
    | some desc =>
      .ok { id := p.1, name := p.2.name, match_score := 90,
            type := ty, eco_score := p.2.eco_score, description := desc }

/-- `get_suggestions(context_type)`: collect every catalog entry whose
tag list contains the given tag (formatting each, so a malformed match
beyond the third still raises), then truncate to 3. -/
noncomputable def get_suggestions (cat : Catalog) (context_type : String) :
    Except String (List ResultRec) := do
  let results ← (cat.filter fun p => context_type ∈ p.2.type.getD []).mapM
    formatSuggestion
  .ok (results.take 3)

/-! ## Spec-side reference pipeline (for the refinement claim)

The specification words the final steps of `recommend` as: sort by
similarity descending, *then* apply the `> 0.05` threshold filter,
*then* truncate to `top_k` — whereas the code slices to `top_k` before
filtering.  `recommendSpec` follows the spec's wording; the refinement
theorem compares it with `recommend`. -/

/-- The spec's pipeline: threshold filtering before truncation. -/
noncomputable def recommendSpec (cat : Catalog) (query : String) (k : ℕ) :
    Except String (List ResultRec) :=
  if queryNorm (corpusOf cat) query = 0 then .ok []
  else
    (((sortedScoresOf (corpusOf cat) (docIdsOf cat) query).filter
      fun p => decide (p.2 > 0.05)).take k).mapM (formatResult cat)

/-! ## Auxiliary definitions for the claims -/

/-- Replace every missing optional field by its empty default. -/
def fill (e : Entry) : Entry :=
  { name := e.name, type := some (e.type.getD []),
    sustainability_features := some (e.sustainability_features.getD []),
    description := some (e.description.getD ""), eco_score := e.eco_score }

/-- Fill the defaults across a whole catalog. -/
def fillCat (cat : Catalog) : Catalog := cat.map fun p => (p.1, fill p.2)

/-- The description of the borderline-similarity catalog entry:
119 copies of the token `y`. -/
def cx1Desc : String := String.intercalate " " (List.replicate 119 "y")

/-- The borderline-similarity catalog entry: its document tokenizes to
6 `x` followed by 119 `y`. -/
def cx1Entry : Entry :=
  { name := "x x x", type := some [], sustainability_features := none,
    description := some cx1Desc, eco_score := 5 }

/-- A one-entry catalog whose single document tokenizes to 6 `x` and
119 `y`; the query `"x"` then has cosine similarity `6 / √14197 ≈
0.05036`, strictly above the threshold yet rounding to a 5.0 score. -/
def cx1 : Catalog := [("d1", cx1Entry)]

/-- The single record `recommend cx1 "x"` returns: its match score is
exactly 5.0. -/
noncomputable def cx1Rec : ResultRec :=
  { id := "d1", name := "x x x", match_score := 5, type := [],
    eco_score := 5, description := cx1Desc }

/-- A catalog entry lacking the optional `description` key. -/
def cx2Entry : Entry :=
  { name := "trek", type := some ["hill"], sustainability_features := none,
    description := none, eco_score := 7 }

/-- A one-entry catalog whose entry lacks the optional `description`
key; the query `"trek"` matches it (similarity `√2/2`), so the
result-formatting loop hits `dest['description']` and raises. -/
def cx2 : Catalog := [("d2", cx2Entry)]

/-- A small catalog for the category-fallback witness: four entries
tagged `spiritual`, one not. -/
def cat8 : Catalog :=
  [("s1", { name := "Varanasi", type := some ["spiritual", "cultural"],
            sustainability_features := some ["ghat cleanup"],
            description := some "ganges ghats", eco_score := 6 }),
   ("b1", { name := "Goa", type := some ["beach"],
            sustainability_features := none,
            description := some "sand and surf", eco_score := 5 }),
   ("s2", { name := "Rishikesh", type := some ["spiritual", "adventure"],
            sustainability_features := none,
            description := some "yoga capital", eco_score := 8 }),
   ("s3", { name := "Bodh Gaya", type := some ["spiritual"],
            sustainability_features := none,
            description := some "bodhi tree", eco_score := 7 }),
   ("s4", { name := "Amritsar", type := some ["spiritual"],
            sustainability_features := none,
            description := some "golden temple", eco_score := 6 })]

/-- The idf weight of a term with document frequency 1 in a one-document
corpus: `log(1 + 1/2)`. -/
noncomputable def idf1 : ℝ := Real.log (3 / 2)

end AIRec

namespace AIRec

/-! ## General list helpers -/

theorem pairwise_of_all {α : Type} {R : α → α → Prop} (h : ∀ a b, R a b) :
    ∀ l : List α, l.Pairwise R := by
  intro l
  induction l with
  | nil => exact List.Pairwise.nil
  | cons x t ih => exact List.Pairwise.cons (fun b _ => h x b) ih

theorem mapM_ok_mem {α β ε : Type} (f : α → Except ε β) :
    ∀ (l : List α) (rs : List β), l.mapM f = .ok rs →
      ∀ r ∈ rs, ∃ x ∈ l, f x = .ok r := by
  intro l
  induction l with
  | nil =>
    intro rs h r hr
    simp only [List.mapM_nil, pure] at h
    cases h
    cases hr
  | cons x t ih =>
    intro rs h r hr
    rw [List.mapM_cons] at h
    cases hfx : f x with
    | error e => rw [hfx] at h; cases h
    | ok y =>
      rw [hfx] at h
      cases hmt : t.mapM f with
      | error e =>
        rw [hmt] at h
        cases h
      | ok ys =>
        rw [hmt] at h
        simp only [bind, Except.bind, pure, Except.pure] at h
        cases h
        rcases List.mem_cons.1 hr with h1 | h1
        · exact ⟨x, List.mem_cons_self x t, h1 ▸ hfx⟩
        · obtain ⟨a, ha, hfa⟩ := ih ys hmt r h1
          exact ⟨a, List.mem_cons_of_mem x ha, hfa⟩

theorem mapM_ok_length {α β ε : Type} (f : α → Except ε β) :
    ∀ (l : List α) (rs : List β), l.mapM f = .ok rs → rs.length = l.length := by
  intro l
  induction l with
  | nil =>
    intro rs h
    simp only [List.mapM_nil, pure] at h
    cases h
    rfl
  | cons x t ih =>
    intro rs h
    rw [List.mapM_cons] at h
    cases hfx : f x with
    | error e => rw [hfx] at h; cases h
    | ok y =>
      rw [hfx] at h
      cases hmt : t.mapM f with
      | error e => rw [hmt] at h; cases h
      | ok ys =>
        rw [hmt] at h
        simp only [bind, Except.bind, pure, Except.pure] at h
        cases h
        simp [ih ys hmt]

theorem mapM_ok_of_all_ok {α β ε : Type} (f : α → Except ε β) (g : α → β) :
    ∀ l : List α, (∀ x ∈ l, f x = .ok (g x)) → l.mapM f = .ok (l.map g) := by
  intro l
  induction l with
  | nil => intro _; rfl
  | cons x t ih =>
    intro h
    rw [List.mapM_cons, h x (List.mem_cons_self x t),
      ih fun a ha => h a (List.mem_cons_of_mem x ha)]
    rfl

/-- On a list sorted descending in the second component, truncating and
then filtering by a threshold equals filtering and then truncating. -/
theorem take_filter_sorted (θ : ℝ) :
    ∀ (l : List (String × ℝ)) (k : ℕ), l.Pairwise (fun a b => b.2 ≤ a.2) →
      (l.take k).filter (fun p => decide (p.2 > θ))
        = (l.filter fun p => decide (p.2 > θ)).take k := by
  intro l
  induction l with
  | nil => intro k _; simp
  | cons x t ih =>
    intro k hp
    rcases List.pairwise_cons.1 hp with ⟨hx, ht⟩
    cases k with
    | zero => simp
    | succ k =>
      rw [List.take_succ_cons, List.filter_cons, List.filter_cons]
      by_cases hxθ : x.2 > θ
      · rw [if_pos (decide_eq_true hxθ), if_pos (decide_eq_true hxθ),
          List.take_succ_cons, ih k ht]
      · have hall : ∀ y ∈ t, ¬(y.2 > θ) := fun y hy =>
          fun hgt => hxθ (lt_of_lt_of_le hgt (hx y hy))
        rw [if_neg (by simpa using hxθ), if_neg (by simpa using hxθ)]
        rw [List.filter_eq_nil_iff.2 (by
          intro a ha
          simpa using hall a (List.mem_of_mem_take ha))]
        rw [List.filter_eq_nil_iff.2 (by intro a ha; simpa using hall a ha)]
        simp

/-! ## Tokenizer lemmas -/

theorem wordsAux_ne_nil : ∀ (l cur : List Char), ∀ w ∈ wordsAux l cur, w ≠ [] := by
  intro l
  induction l with
  | nil =>
    intro cur w hw
    rw [wordsAux] at hw
    by_cases hc : cur.isEmpty
    · rw [if_pos hc] at hw
      cases hw
    · rw [if_neg hc] at hw
      rcases List.mem_singleton.1 hw with rfl
      intro hnil
      exact hc (by simp [List.isEmpty_iff, (List.reverse_eq_nil_iff).1 hnil])
  | cons c cs ih =>
    intro cur w hw
    rw [wordsAux] at hw
    by_cases hws : pyIsWs c
    · rw [if_pos hws] at hw
      by_cases hc : cur.isEmpty
      · rw [if_pos hc] at hw
        exact ih [] w hw
      · rw [if_neg hc] at hw
        rcases List.mem_cons.1 hw with rfl | h
        · intro hnil
          exact hc (by simp [List.isEmpty_iff, (List.reverse_eq_nil_iff).1 hnil])
        · exact ih [] w h
    · rw [if_neg hws] at hw
      exact ih (c :: cur) w hw

theorem wordsAux_chars (p : Char → Prop) :
    ∀ (l cur : List Char), (∀ c ∈ l, p c) →
      (∀ c ∈ cur, p c ∧ pyIsWs c = false) →
      ∀ w ∈ wordsAux l cur, ∀ c ∈ w, p c ∧ pyIsWs c = false := by
  intro l
  induction l with
  | nil =>
    intro cur _ hcur w hw c hc
    rw [wordsAux] at hw
    by_cases hce : cur.isEmpty
    · rw [if_pos hce] at hw
      cases hw
    · rw [if_neg hce] at hw
      rcases List.mem_singleton.1 hw with rfl
      exact hcur c (List.mem_reverse.1 hc)
  | cons a as ih =>
    intro cur hl hcur w hw c hc
    rw [wordsAux] at hw
    by_cases hws : pyIsWs a
    · rw [if_pos hws] at hw
      by_cases hce : cur.isEmpty
      · rw [if_pos hce] at hw
        exact ih [] (fun d hd => hl d (List.mem_cons_of_mem a hd)) (by simp) w hw c hc
      · rw [if_neg hce] at hw
        rcases List.mem_cons.1 hw with rfl | h
        · exact hcur c (List.mem_reverse.1 hc)
        · exact ih [] (fun d hd => hl d (List.mem_cons_of_mem a hd)) (by simp) w h c hc
    · rw [if_neg hws] at hw
      refine ih (a :: cur) (fun d hd => hl d (List.mem_cons_of_mem a hd)) ?_ w hw c hc
      intro d hd
      rcases List.mem_cons.1 hd with rfl | h
      · exact ⟨hl _ (List.mem_cons_self _ as), by simpa using hws⟩
      · exact hcur d h

theorem keepChar_not_ws {c : Char} (h1 : keepChar c = true) (h2 : pyIsWs c = false) :
    ('a' ≤ c ∧ c ≤ 'z') ∨ ('0' ≤ c ∧ c ≤ '9') := by
  rw [keepChar, h2] at h1
  simpa [Bool.or_eq_true, Bool.and_eq_true, decide_eq_true_iff] using h1

/-! ## Claim C9: the tokenizer contract -/

/-- C9: `tokenize` produces only lowercase-alphanumeric, non-empty,
non-stop-word tokens, `tokenize("The Himalayan Trek!!")` is
`["himalayan", "trek"]`, and the empty input yields the empty list. -/
theorem C9_tokenize_contract :
    (∀ s : String, ∀ w ∈ tokenize s, w ∉ stop_words ∧ w ≠ "" ∧
      ∀ c ∈ w.toList, ('a' ≤ c ∧ c ≤ 'z') ∨ ('0' ≤ c ∧ c ≤ '9'))
    ∧ tokenize "The Himalayan Trek!!" = ["himalayan", "trek"]
    ∧ tokenize "" = [] := by
  refine ⟨?_, by decide, by decide⟩
  intro s w hw
  rw [tokenize] at hw
  rcases List.mem_filter.1 hw with ⟨hmap, hstop⟩
  rcases List.mem_map.1 hmap with ⟨w', hw', rfl⟩
  have hchars := wordsAux_chars (fun c => keepChar c = true)
    ((s.toList.map Char.toLower).filter keepChar) []
    (fun c hc => List.of_mem_filter hc) (by simp) w' hw'
  refine ⟨of_decide_eq_true hstop, ?_, ?_⟩
  · have hne := wordsAux_ne_nil _ [] w' hw'
    simpa [String.ext_iff] using hne
  · intro c hc
    have hc' : c ∈ w' := by simpa [String.toList] using hc
    exact keepChar_not_ws (hchars c hc').1 (hchars c hc').2

/-- Witness for C9: the general token invariant instantiated on the
spec's own example. -/
theorem C9_tokenize_contract_witness :
    "himalayan" ∉ stop_words ∧ "himalayan" ≠ "" ∧
      ∀ c ∈ "himalayan".toList,
        ('a' ≤ c ∧ c ≤ 'z') ∨ ('0' ≤ c ∧ c ≤ '9') :=
  C9_tokenize_contract.1 "The Himalayan Trek!!" "himalayan" (by decide)

/-! ## Claim C5: the corpus builder -/

theorem prepareCorpus_foldl_aux :
    ∀ (cat : Catalog) (a b : List String),
      cat.foldl (fun acc p => (acc.1 ++ [docText p.2], acc.2 ++ [p.1])) (a, b)
        = (a ++ cat.map fun p => docText p.2, b ++ cat.map Prod.fst) := by
  intro cat
  induction cat with
  | nil => intro a b; simp
  | cons x t ih =>
    intro a b
    rw [List.foldl_cons, ih]
    simp

/-- C5: `_prepare_corpus` emits, per catalog entry in order, a document
whose raw text joins the name twice, the tag list twice, the features
once and the description once, and keeps the catalog key as the
document id. -/
theorem C5_corpus_builder (cat : Catalog) :
    (prepareCorpus cat).1 = (cat.map fun p => String.intercalate " "
      ([p.2.name, p.2.name] ++ p.2.type.getD [] ++ p.2.type.getD []
        ++ p.2.sustainability_features.getD [] ++ [p.2.description.getD ""]))
    ∧ (prepareCorpus cat).2 = cat.map Prod.fst := by
  rw [prepareCorpus, prepareCorpus_foldl_aux]
  exact ⟨by simp [docText, docParts], by simp⟩

/-! ## Claim C4: the idf table -/

theorem dfCount_aux (t : String) :
    ∀ (vocabs : List (List String)) (n : ℕ),
      vocabs.foldl (fun n toks => n + if t ∈ toks then 1 else 0) n
        = n + vocabs.countP fun toks => decide (t ∈ toks) := by
  intro vocabs
  induction vocabs with
  | nil => intro n; simp
  | cons v vs ih =>
    intro n
    rw [List.foldl_cons, ih, List.countP_cons]
    by_cases h : t ∈ v
    · simp [h]
      omega
    · simp [h]

theorem dfCount_eq (vocabs : List (List String)) (t : String) :
    dfCount vocabs t = vocabs.countP fun toks => decide (t ∈ toks) := by
  rw [dfCount, dfCount_aux]
  omega

theorem mem_idxKeys (corpus : List String) (t : String) :
    t ∈ idxKeys corpus ↔ ∃ d ∈ corpus, t ∈ tokenize d := by
  simp [idxKeys, idxVocabs, List.mem_dedup, List.mem_flatten]

/-- C4: in a non-empty corpus the idf table has an entry exactly for
each term occurring in some document, and its value is
`ln(1 + N/(df+1))` where `df` counts the documents whose distinct-token
set contains the term. -/
theorem C4_idf_table (corpus : List String) (t : String) (h : corpus ≠ []) :
    (t ∈ idxKeys corpus ↔ ∃ d ∈ corpus, t ∈ tokenize d)
    ∧ (t ∈ idxKeys corpus →
        idfOf corpus t = Real.log (1 + (corpus.length : ℝ) /
          (((corpus.countP fun d => decide (t ∈ tokenize d)) : ℝ) + 1))) := by
  refine ⟨mem_idxKeys corpus t, fun ht => ?_⟩
  rw [idfOf, if_pos ht, dfCount_eq]
  have hc : ((idxVocabs corpus).countP fun toks => decide (t ∈ toks))
      = corpus.countP fun d => decide (t ∈ tokenize d) := by
    rw [idxVocabs, List.countP_map]
    exact List.countP_congr fun d _ => by simp [Function.comp, List.mem_dedup]
  rw [hc]

/-- Witness for C4 on a concrete two-document corpus: the term `y`
occurs in both documents, so `idf(y) = ln(1 + 2/3)`. -/
theorem C4_idf_table_witness :
    idfOf ["x y", "y"] "y" = Real.log (1 + 2 / (2 + 1)) := by
  have h := (C4_idf_table ["x y", "y"] "y" (by decide)).2 (by decide)
  rw [h, show (List.countP (fun d => decide ("y" ∈ tokenize d)) ["x y", "y"]) = 2 from by decide]
  norm_num

end AIRec

namespace AIRec

/-! ## Claim C7: zero-signal queries -/

/-- C7: a query none of whose tokens is in the idf table (in particular
an empty or all-stop-word query) yields a zero query norm, and
`recommend` returns the empty list without error. -/
theorem C7_no_signal (cat : Catalog) (query : String) (k : ℕ)
    (h : ∀ t ∈ tokenize query, t ∉ idxKeys (corpusOf cat)) :
    recommend cat query k = .ok [] := by
  have hq : qSupport (corpusOf cat) query = [] := by
    rw [qSupport, List.filter_eq_nil_iff]
    intro t ht
    simpa using h t (List.mem_dedup.1 ht)
  have hn : queryNorm (corpusOf cat) query = 0 := by
    rw [queryNorm, hq]
    rw [show vecNormSq (queryVec (corpusOf cat) query) [] = 0 from rfl,
      Real.sqrt_zero]
  rw [recommend, if_pos hn]

/-- Witness for C7: the spec's nonsense query against a real catalog. -/
theorem C7_no_signal_witness : recommend cat8 "zzxxqq wwvvrr" 3 = .ok [] :=
  C7_no_signal cat8 "zzxxqq wwvvrr" 3 (by decide)

/-! ## Claim C8: the category fallback -/

/-- C8 (amended): `get_suggestions` returns exactly the catalog entries
whose tag sequence contains the given tag, in catalog order, truncated
to 3, each with a match score of 90 — provided every tag-matching entry
has its `description` key; when one lacks it, the formatting loop
raises a `KeyError` instead (see `C8_counterexample`). -/
theorem C8_get_suggestions (cat : Catalog) (tag : String)
    (h : ∀ p ∈ cat, tag ∈ p.2.type.getD [] → p.2.description.isSome) :
    get_suggestions cat tag =
      .ok (((cat.filter fun p => tag ∈ p.2.type.getD []).take 3).map fun p =>
        { id := p.1, name := p.2.name, match_score := 90,
          type := p.2.type.getD [], eco_score := p.2.eco_score,
          description := p.2.description.getD "" })
    ∧ ∀ rs, get_suggestions cat tag = .ok rs →
        rs.length ≤ 3 ∧ ∀ r ∈ rs, r.match_score = 90 := by
  have hmap : (cat.filter fun p => decide (tag ∈ p.2.type.getD [])).mapM
      formatSuggestion
      = .ok ((cat.filter fun p => decide (tag ∈ p.2.type.getD [])).map fun p =>
        ({ id := p.1, name := p.2.name, match_score := 90,
           type := p.2.type.getD [], eco_score := p.2.eco_score,
           description := p.2.description.getD "" } : ResultRec)) := by
    apply mapM_ok_of_all_ok
    intro p hp
    rcases List.mem_filter.1 hp with ⟨hpc, hptag⟩
    have htag : tag ∈ p.2.type.getD [] := of_decide_eq_true hptag
    cases hty : p.2.type with
    | none => rw [hty] at htag; cases htag
    | some ty =>
      have hdesc := h p hpc htag
      cases hdw : p.2.description with
      | none => rw [hdw] at hdesc; cases hdesc
      | some d =>
        rw [formatSuggestion, hty, hdw]
        simp [hty, hdw]
  have hmain : get_suggestions cat tag
      = .ok (((cat.filter fun p => tag ∈ p.2.type.getD []).take 3).map fun p =>
        ({ id := p.1, name := p.2.name, match_score := 90,
           type := p.2.type.getD [], eco_score := p.2.eco_score,
           description := p.2.description.getD "" } : ResultRec)) := by
    rw [get_suggestions, hmap, List.map_take]
    rfl
  refine ⟨hmain, fun rs hrs => ?_⟩
  rw [hmain] at hrs
  injection hrs with hrs2
  subst hrs2
  constructor
  · calc (((cat.filter fun p => tag ∈ p.2.type.getD []).take 3).map fun p =>
        ({ id := p.1, name := p.2.name, match_score := 90,
           type := p.2.type.getD [], eco_score := p.2.eco_score,
           description := p.2.description.getD "" } : ResultRec)).length
        = ((cat.filter fun p => tag ∈ p.2.type.getD []).take 3).length :=
          List.length_map _ _
      _ ≤ 3 := List.length_take_le _ _
  · intro r hr
    rcases List.mem_map.1 hr with ⟨p, _, rfl⟩
    rfl

/-- C8 counterexample: the single entry of `cx2` carries the tag
`hill` but lacks the optional `description` key, so instead of
returning that entry with a score of 90, `get_suggestions` hits
`data['description']` and raises a `KeyError` — the claim fails on
catalogs whose tag-matching entries miss a description. -/
theorem C8_counterexample :
    get_suggestions cx2 "hill" = .error "KeyError: description" := rfl

/-- Witness for C8 on the concrete five-entry catalog: the three
first `spiritual` entries come back, each scored 90. -/
theorem C8_get_suggestions_witness :
    get_suggestions cat8 "spiritual" =
      .ok [{ id := "s1", name := "Varanasi", match_score := 90,
             type := ["spiritual", "cultural"], eco_score := 6,
             description := "ganges ghats" },
           { id := "s2", name := "Rishikesh", match_score := 90,
             type := ["spiritual", "adventure"], eco_score := 8,
             description := "yoga capital" },
           { id := "s3", name := "Bodh Gaya", match_score := 90,
             type := ["spiritual"], eco_score := 7,
             description := "bodhi tree" }] := by
  have h := (C8_get_suggestions cat8 "spiritual" (by decide)).1
  rw [h]
  rfl

end AIRec

namespace AIRec

/-! ## Concrete evaluation of the two one-entry catalogs -/

theorem idf1_pos : 0 < idf1 := Real.log_pos (by norm_num)

theorem idf1_nonneg : 0 ≤ idf1 := idf1_pos.le

theorem idf_cx1_x : idfOf (corpusOf cx1) "x" = idf1 := by
  rw [idfOf, if_pos (by decide)]
  rw [show dfCount (idxVocabs (corpusOf cx1)) "x" = 1 from by decide]
  rw [show (corpusOf cx1).length = 1 from by decide]
  norm_num [idf1]

theorem idf_cx1_y : idfOf (corpusOf cx1) "y" = idf1 := by
  rw [idfOf, if_pos (by decide)]
  rw [show dfCount (idxVocabs (corpusOf cx1)) "y" = 1 from by decide]
  rw [show (corpusOf cx1).length = 1 from by decide]
  norm_num [idf1]

theorem qv_cx1_x : queryVec (corpusOf cx1) "x" "x" = idf1 := by
  rw [queryVec, if_pos (by decide)]
  rw [show tokenize "x" = ["x"] from by decide]
  rw [idf_cx1_x]
  norm_num [totalTerms]

theorem qsupp_cx1 : qSupport (corpusOf cx1) "x" = ["x"] := by decide

theorem qn_cx1 : queryNorm (corpusOf cx1) "x" = idf1 := by
  rw [queryNorm, qsupp_cx1, vecNormSq]
  simp only [List.map_cons, List.map_nil, List.sum_cons, List.sum_nil, add_zero]
  rw [qv_cx1_x, Real.sqrt_sq idf1_nonneg]

theorem dv_cx1_x : docVec (corpusOf cx1) (docText cx1Entry) "x" = 6 / 125 * idf1 := by
  rw [docVec, tfidfVec, idf_cx1_x]
  rw [show (tokenize (docText cx1Entry)).count "x" = 6 from by decide]
  rw [show totalTerms (tokenize (docText cx1Entry)) = 125 from by decide]
  norm_num

theorem dv_cx1_y : docVec (corpusOf cx1) (docText cx1Entry) "y" = 119 / 125 * idf1 := by
  rw [docVec, tfidfVec, idf_cx1_y]
  rw [show (tokenize (docText cx1Entry)).count "y" = 119 from by decide]
  rw [show totalTerms (tokenize (docText cx1Entry)) = 125 from by decide]
  norm_num

theorem sqrt14197_pos : 0 < Real.sqrt 14197 := Real.sqrt_pos.2 (by norm_num)

theorem dn_cx1 : docNorm (corpusOf cx1) (docText cx1Entry)
    = Real.sqrt 14197 / 125 * idf1 := by
  rw [docNorm, show (tokenize (docText cx1Entry)).dedup = ["x", "y"] from by decide,
    vecNormSq]
  simp only [List.map_cons, List.map_nil, List.sum_cons, List.sum_nil, add_zero]
  rw [dv_cx1_x, dv_cx1_y]
  rw [show (6 / 125 * idf1) ^ 2 + (119 / 125 * idf1) ^ 2
      = 14197 / 15625 * idf1 ^ 2 from by ring]
  rw [Real.sqrt_mul (by norm_num), Real.sqrt_sq idf1_nonneg]
  rw [show (14197 : ℝ) / 15625 = 14197 / 125 ^ 2 from by norm_num]
  rw [Real.sqrt_div (by norm_num : (0:ℝ) ≤ 14197)]
  rw [show Real.sqrt ((125 : ℝ) ^ 2) = 125 from Real.sqrt_sq (by norm_num)]

theorem dot_cx1 : dotProd (corpusOf cx1) "x" (docText cx1Entry)
    = idf1 * (6 / 125 * idf1) := by
  rw [dotProd, qsupp_cx1]
  simp only [List.map_cons, List.map_nil, List.sum_cons, List.sum_nil, add_zero]
  rw [if_pos (by decide : "x" ∈ tokenize (docText cx1Entry))]
  rw [qv_cx1_x, dv_cx1_x]

theorem sim_cx1 : simOf (corpusOf cx1) "x" (docText cx1Entry)
    = 6 / Real.sqrt 14197 := by
  rw [simOf, if_pos]
  · rw [dot_cx1, qn_cx1, dn_cx1]
    have hidf := idf1_pos.ne.symm
    have hs := sqrt14197_pos.ne.symm
    field_simp
    ring
  · rw [dn_cx1]
    exact mul_pos (div_pos sqrt14197_pos (by norm_num)) idf1_pos

theorem sim_cx1_gt : (0.05 : ℝ) < 6 / Real.sqrt 14197 := by
  rw [lt_div_iff₀ sqrt14197_pos]
  have hs : Real.sqrt 14197 < 120 := (Real.sqrt_lt' (by norm_num)).2 (by norm_num)
  nlinarith

theorem scores_cx1 : scoresOf (corpusOf cx1) (docIdsOf cx1) "x"
    = [("d1", 6 / Real.sqrt 14197)] := by
  rw [scoresOf]
  rw [show (docIdsOf cx1).zip (corpusOf cx1) = [("d1", docText cx1Entry)] from by decide]
  simp only [List.map_cons, List.map_nil]
  rw [sim_cx1]

theorem sorted_cx1 : sortedScoresOf (corpusOf cx1) (docIdsOf cx1) "x"
    = [("d1", 6 / Real.sqrt 14197)] := by
  rw [sortedScoresOf, scores_cx1, List.mergeSort_singleton]

theorem qn_cx1_ne : queryNorm (corpusOf cx1) "x" ≠ 0 := by
  rw [qn_cx1]
  exact idf1_pos.ne.symm

theorem z_bounds_cx1 :
    (50 : ℝ) ≤ 6 / Real.sqrt 14197 * 100 * 10
      ∧ 6 / Real.sqrt 14197 * 100 * 10 < 50.5 := by
  constructor
  · rw [div_mul_eq_mul_div, div_mul_eq_mul_div, le_div_iff₀ sqrt14197_pos]
    have hs : Real.sqrt 14197 ≤ 120 := by
      calc Real.sqrt 14197 ≤ Real.sqrt (120 ^ 2) := Real.sqrt_le_sqrt (by norm_num)
        _ = 120 := Real.sqrt_sq (by norm_num)
    nlinarith
  · rw [div_mul_eq_mul_div, div_mul_eq_mul_div, div_lt_iff₀ sqrt14197_pos]
    have hs : (6000 : ℝ) / 50.5 < Real.sqrt 14197 := by
      have h1 := (Real.lt_sqrt (by norm_num : (0:ℝ) ≤ 6000 / 50.5)).2
        (by norm_num : ((6000 : ℝ) / 50.5) ^ 2 < 14197)
      exact h1
    rw [div_lt_iff₀ (by norm_num : (0:ℝ) < 50.5)] at hs
    nlinarith

theorem round_cx1 : pyRound1 (6 / Real.sqrt 14197 * 100) = 5 := by
  obtain ⟨h1, h2⟩ := z_bounds_cx1
  rw [pyRound1, pyRound]
  have hfloor : ⌊6 / Real.sqrt 14197 * 100 * 10⌋ = 50 := by
    rw [Int.floor_eq_iff]
    constructor
    · exact_mod_cast h1
    · push_cast
      linarith
  have hfract : Int.fract (6 / Real.sqrt 14197 * 100 * 10) ≠ 1 / 2 := by
    rw [Int.fract, hfloor]
    push_cast
    intro h
    nlinarith
  rw [if_neg hfract, round_eq]
  rw [show ⌊6 / Real.sqrt 14197 * 100 * 10 + 1 / 2⌋ = 50 from by
    rw [Int.floor_eq_iff]
    constructor
    · push_cast
      linarith
    · push_cast
      linarith]
  norm_num

theorem dictGet_cx1 : dictGet cx1 "d1" = .ok cx1Entry := rfl

theorem format_cx1 : formatResult cx1 ("d1", 6 / Real.sqrt 14197) = .ok cx1Rec :=
  calc formatResult cx1 ("d1", 6 / Real.sqrt 14197)
      = .ok { id := "d1", name := "x x x",
              match_score := pyRound1 (6 / Real.sqrt 14197 * 100), type := [],
              eco_score := 5, description := cx1Desc } := rfl
    _ = .ok cx1Rec := by rw [round_cx1]; rfl

theorem recommend_cx1 : recommend cx1 "x" 3 = .ok [cx1Rec] := by
  rw [recommend, if_neg qn_cx1_ne, sorted_cx1]
  rw [show List.take 3 [("d1", 6 / Real.sqrt 14197)]
      = [("d1", 6 / Real.sqrt 14197)] from rfl]
  rw [List.filter_cons, if_pos (by exact decide_eq_true sim_cx1_gt)]
  simp only [List.filter_nil, List.mapM_cons, List.mapM_nil]
  rw [format_cx1]
  rfl

end AIRec

namespace AIRec

/-! ## Concrete evaluation of `cx2` (missing description) -/

theorem idf_cx2_trek : idfOf (corpusOf cx2) "trek" = idf1 := by
  rw [idfOf, if_pos (by decide)]
  rw [show dfCount (idxVocabs (corpusOf cx2)) "trek" = 1 from by decide]
  rw [show (corpusOf cx2).length = 1 from by decide]
  norm_num [idf1]

theorem qv_cx2 : queryVec (corpusOf cx2) "trek" "trek" = idf1 := by
  rw [queryVec, if_pos (by decide)]
  rw [show tokenize "trek" = ["trek"] from by decide]
  rw [idf_cx2_trek]
  norm_num [totalTerms]

theorem qn_cx2 : queryNorm (corpusOf cx2) "trek" = idf1 := by
  rw [queryNorm, show qSupport (corpusOf cx2) "trek" = ["trek"] from by decide,
    vecNormSq]
  simp only [List.map_cons, List.map_nil, List.sum_cons, List.sum_nil, add_zero]
  rw [qv_cx2, Real.sqrt_sq idf1_nonneg]

theorem dv_cx2_trek : docVec (corpusOf cx2) (docText cx2Entry) "trek"
    = 2 / 4 * idf1 := by
  rw [docVec, tfidfVec, idf_cx2_trek]
  rw [show (tokenize (docText cx2Entry)).count "trek" = 2 from by decide]
  rw [show totalTerms (tokenize (docText cx2Entry)) = 4 from by decide]
  norm_num

theorem dv_cx2_hill : docVec (corpusOf cx2) (docText cx2Entry) "hill"
    = 2 / 4 * idf1 := by
  rw [docVec, tfidfVec]
  rw [show idfOf (corpusOf cx2) "hill" = idf1 from by
    rw [idfOf, if_pos (by decide)]
    rw [show dfCount (idxVocabs (corpusOf cx2)) "hill" = 1 from by decide]
    rw [show (corpusOf cx2).length = 1 from by decide]
    norm_num [idf1]]
  rw [show (tokenize (docText cx2Entry)).count "hill" = 2 from by decide]
  rw [show totalTerms (tokenize (docText cx2Entry)) = 4 from by decide]
  norm_num

theorem sqrt2_pos : 0 < Real.sqrt 2 := Real.sqrt_pos.2 (by norm_num)

theorem dn_cx2 : docNorm (corpusOf cx2) (docText cx2Entry)
    = Real.sqrt 2 / 2 * idf1 := by
  rw [docNorm, show (tokenize (docText cx2Entry)).dedup = ["trek", "hill"] from by decide,
    vecNormSq]
  simp only [List.map_cons, List.map_nil, List.sum_cons, List.sum_nil, add_zero]
  rw [dv_cx2_trek, dv_cx2_hill]
  rw [show (2 / 4 * idf1) ^ 2 + (2 / 4 * idf1) ^ 2 = 2 / 2 ^ 2 * idf1 ^ 2 from by ring]
  rw [Real.sqrt_mul (by norm_num), Real.sqrt_sq idf1_nonneg]
  rw [Real.sqrt_div (by norm_num : (0:ℝ) ≤ 2)]
  rw [show Real.sqrt ((2:ℝ) ^ 2) = 2 from Real.sqrt_sq (by norm_num)]

theorem dot_cx2 : dotProd (corpusOf cx2) "trek" (docText cx2Entry)
    = idf1 * (2 / 4 * idf1) := by
  rw [dotProd, show qSupport (corpusOf cx2) "trek" = ["trek"] from by decide]
  simp only [List.map_cons, List.map_nil, List.sum_cons, List.sum_nil, add_zero]
  rw [if_pos (by decide : "trek" ∈ tokenize (docText cx2Entry))]
  rw [qv_cx2, dv_cx2_trek]

theorem sim_cx2 : simOf (corpusOf cx2) "trek" (docText cx2Entry)
    = Real.sqrt 2 / 2 := by
  have hden : queryNorm (corpusOf cx2) "trek"
      * docNorm (corpusOf cx2) (docText cx2Entry) ≠ 0 := by
    rw [qn_cx2, dn_cx2]
    exact (mul_pos idf1_pos
      (mul_pos (div_pos sqrt2_pos (by norm_num)) idf1_pos)).ne.symm
  rw [simOf, if_pos]
  · rw [div_eq_iff hden, dot_cx2, qn_cx2, dn_cx2]
    have h2 : Real.sqrt 2 ^ 2 = 2 := Real.sq_sqrt (by norm_num)
    linear_combination (-(idf1 ^ 2) / 4) * h2
  · rw [dn_cx2]
    exact mul_pos (div_pos sqrt2_pos (by norm_num)) idf1_pos

theorem sim_cx2_gt : (0.05 : ℝ) < Real.sqrt 2 / 2 := by
  have h1 : (1:ℝ) < Real.sqrt 2 := by
    rw [show (1:ℝ) = Real.sqrt 1 from (Real.sqrt_one).symm]
    exact Real.sqrt_lt_sqrt (by norm_num) (by norm_num)
  linarith

theorem scores_cx2 : scoresOf (corpusOf cx2) (docIdsOf cx2) "trek"
    = [("d2", Real.sqrt 2 / 2)] := by
  rw [scoresOf]
  rw [show (docIdsOf cx2).zip (corpusOf cx2) = [("d2", docText cx2Entry)] from by decide]
  simp only [List.map_cons, List.map_nil]
  rw [sim_cx2]

theorem recommend_cx2 : recommend cx2 "trek" 3 = .error "KeyError: description" := by
  rw [recommend, if_neg (by rw [qn_cx2]; exact idf1_pos.ne.symm)]
  rw [sortedScoresOf, scores_cx2, List.mergeSort_singleton]
  rw [show List.take 3 [("d2", Real.sqrt 2 / 2)] = [("d2", Real.sqrt 2 / 2)] from rfl]
  rw [List.filter_cons, if_pos (by exact decide_eq_true sim_cx2_gt)]
  simp only [List.filter_nil, List.mapM_cons, List.mapM_nil]
  rfl

end AIRec

namespace AIRec

/-! ## Rounding bounds for the score claims -/

theorem le_pyRound {x : ℝ} {n : ℤ} (h : (n : ℝ) ≤ x) : n ≤ pyRound x := by
  rw [pyRound]
  have hfl : n ≤ ⌊x⌋ := Int.le_floor.2 h
  by_cases hf : Int.fract x = 1 / 2
  · rw [if_pos hf]
    by_cases he : Even ⌊x⌋
    · rw [if_pos he]
      exact hfl
    · rw [if_neg he]
      omega
  · rw [if_neg hf, round_eq]
    exact le_trans hfl (Int.floor_le_floor (by linarith))

theorem pyRound_le {x : ℝ} {n : ℤ} (h : x ≤ n) : pyRound x ≤ n := by
  rw [pyRound]
  by_cases hf : Int.fract x = 1 / 2
  · rw [if_pos hf]
    have hx : x = (⌊x⌋ : ℝ) + 1 / 2 := by
      have := Int.fract_add_floor x
      rw [hf] at this
      linarith
    have hfl : (⌊x⌋ : ℝ) + 1 / 2 ≤ (n : ℝ) := by rw [← hx]; exact h
    have hlt : ⌊x⌋ < n := by exact_mod_cast lt_of_lt_of_le (by linarith : (⌊x⌋:ℝ) < (⌊x⌋:ℝ) + 1/2) hfl
    by_cases he : Even ⌊x⌋
    · rw [if_pos he]
      omega
    · rw [if_neg he]
      omega
  · rw [if_neg hf, round_eq]
    rw [Int.floor_le_iff]
    push_cast
    linarith

/-- Extract the `match_score` of any successfully formatted record. -/
theorem formatResult_ok_score (cat : Catalog) (p : String × ℝ) (r : ResultRec)
    (h : formatResult cat p = .ok r) : r.match_score = pyRound1 (p.2 * 100) := by
  rw [formatResult] at h
  cases hd : dictGet cat p.1 with
  | error e => rw [hd] at h; cases h
  | ok dest =>
    rw [hd] at h
    simp only [bind, Except.bind] at h
    cases hty : dest.type with
    | none => rw [hty] at h; cases h
    | some ty =>
      rw [hty] at h
      cases hde : dest.description with
      | none => rw [hde] at h; cases h
      | some d =>
        rw [hde] at h
        injection h with h2
        rw [← h2]

/-! ## Claim C1: the threshold vs. the rounded score -/

/-- C1 counterexample: on the catalog `cx1` with query `"x"`, the single
returned record has `match_score = 5.0`, not `> 5.0` — its underlying
similarity `6/√14197 ≈ 0.05036` passes the strict `> 0.05` filter, but
the percentage rounds down to exactly 5.0. -/
theorem C1_counterexample :
    recommend cx1 "x" 3 = .ok [cx1Rec] ∧ ¬(5 < cx1Rec.match_score) :=
  ⟨recommend_cx1, by rw [show cx1Rec.match_score = 5 from rfl]; exact lt_irrefl 5⟩

/-- C1 (amended): every record returned by `recommend` has
`match_score ≥ 5.0` (the underlying similarity exceeds 0.05, so the
rounded percentage is at least 5.0; equality is attainable). -/
theorem C1_score_floor (cat : Catalog) (query : String) (k : ℕ)
    (rs : List ResultRec) (h : recommend cat query k = .ok rs) :
    ∀ r ∈ rs, 5 ≤ r.match_score := by
  intro r hr
  rw [recommend] at h
  by_cases h0 : queryNorm (corpusOf cat) query = 0
  · rw [if_pos h0] at h
    injection h with h2
    subst h2
    cases hr
  · rw [if_neg h0] at h
    obtain ⟨p, hp, hfmt⟩ := mapM_ok_mem _ _ _ h r hr
    have hgt : (0.05 : ℝ) < p.2 := by
      have hdec := (List.mem_filter.1 hp).2
      simpa using hdec
    have hscore := formatResult_ok_score cat p r hfmt
    have h50 : ((50 : ℤ) : ℝ) ≤ p.2 * 100 * 10 := by
      have : (50 : ℝ) ≤ p.2 * 100 * 10 := by nlinarith
      exact_mod_cast this
    have hle : (50 : ℤ) ≤ pyRound (p.2 * 100 * 10) := le_pyRound h50
    rw [hscore, pyRound1]
    have hcast : (50 : ℝ) ≤ (pyRound (p.2 * 100 * 10) : ℝ) := by exact_mod_cast hle
    linarith

/-- Witness for the amended C1, at the borderline catalog: the returned
record scores exactly 5.0. -/
theorem C1_score_floor_witness : 5 ≤ cx1Rec.match_score :=
  C1_score_floor cx1 "x" 3 [cx1Rec] recommend_cx1 cx1Rec (List.mem_singleton_self _)

/-! ## Claim C2: missing optional fields -/

theorem docText_fill (e : Entry) : docText (fill e) = docText e := rfl

theorem corpusOf_fillCat (cat : Catalog) : corpusOf (fillCat cat) = corpusOf cat := by
  rw [corpusOf, prepareCorpus, prepareCorpus_foldl_aux,
    corpusOf, prepareCorpus, prepareCorpus_foldl_aux]
  simp only [List.nil_append, fillCat, List.map_map]
  exact List.map_congr_left fun p _ => rfl

theorem docIdsOf_fillCat (cat : Catalog) : docIdsOf (fillCat cat) = docIdsOf cat := by
  rw [docIdsOf, prepareCorpus, prepareCorpus_foldl_aux,
    docIdsOf, prepareCorpus, prepareCorpus_foldl_aux]
  simp [fillCat, List.map_map, Function.comp]

/-- C2 (amended): corpus construction and the whole similarity pipeline
treat a missing `description`, `type` or `sustainability_features`
exactly as the empty default — filling the defaults changes no document
text, id, or similarity score.  But the *result formatting* of
`recommend` (and of `get_suggestions`) indexes `dest['description']` /
`dest['type']` directly and raises a `KeyError` for a returned record
missing those keys, as `C2_counterexample` shows. -/
theorem C2_missing_fields (cat : Catalog) (query : String) :
    corpusOf (fillCat cat) = corpusOf cat
    ∧ docIdsOf (fillCat cat) = docIdsOf cat
    ∧ scoresOf (corpusOf (fillCat cat)) (docIdsOf (fillCat cat)) query
        = scoresOf (corpusOf cat) (docIdsOf cat) query := by
  refine ⟨corpusOf_fillCat cat, docIdsOf_fillCat cat, ?_⟩
  rw [corpusOf_fillCat, docIdsOf_fillCat]

/-- C2 counterexample: the entry of `cx2` lacks only the optional
`description`; the query `"trek"` matches it with similarity `√2/2`,
and `recommend` raises a `KeyError` instead of treating the field as
empty. -/
theorem C2_counterexample :
    recommend cx2 "trek" 3 = .error "KeyError: description" := recommend_cx2

end AIRec

namespace AIRec

/-! ## Claim C6: descending stable sort -/

theorem descLe_trans : ∀ a b c : String × ℝ,
    decide (b.2 ≤ a.2) = true → decide (c.2 ≤ b.2) = true →
      decide (c.2 ≤ a.2) = true := by
  intro a b c hab hbc
  exact decide_eq_true (le_trans (of_decide_eq_true hbc) (of_decide_eq_true hab))

theorem descLe_total : ∀ a b : String × ℝ,
    (decide (b.2 ≤ a.2) || decide (a.2 ≤ b.2)) = true := by
  intro a b
  simpa using le_total b.2 a.2

theorem sortedScores_pairwise (corpus ids : List String) (query : String) :
    (sortedScoresOf corpus ids query).Pairwise fun a b => b.2 ≤ a.2 := by
  have h := @List.sorted_mergeSort (String × ℝ) (fun a b => decide (b.2 ≤ a.2))
    descLe_trans descLe_total (scoresOf corpus ids query)
  rw [sortedScoresOf]
  exact h.imp fun hab => of_decide_eq_true hab

/-- Stability of the descending sort: elements carrying any fixed score
keep their original relative order (and multiplicity). -/
theorem mergeSort_desc_stable (l : List (String × ℝ)) (c : ℝ) :
    ((l.mergeSort fun a b => decide (b.2 ≤ a.2)).filter fun p => decide (p.2 = c))
      = l.filter fun p => decide (p.2 = c) := by
  have hpair : (l.filter fun p => decide (p.2 = c)).Pairwise
      fun a b => (fun x y : String × ℝ => decide (y.2 ≤ x.2)) a b = true := by
    rw [List.pairwise_filter]
    apply pairwise_of_all
    intro a b
    intro hx hy
    exact decide_eq_true (le_of_eq (hy.trans hx.symm))
  have hsub : List.Sublist (l.filter fun p => decide (p.2 = c))
      (l.mergeSort fun a b => decide (b.2 ≤ a.2)) :=
    List.sublist_mergeSort descLe_trans descLe_total hpair (List.filter_sublist l)
  have hidem : ((l.filter fun p => decide (p.2 = c)).filter fun p => decide (p.2 = c))
      = l.filter fun p => decide (p.2 = c) :=
    List.filter_eq_self.2 fun a ha => (List.mem_filter.1 ha).2
  have hsub2 : List.Sublist (l.filter fun p => decide (p.2 = c))
      ((l.mergeSort fun a b => decide (b.2 ≤ a.2)).filter fun p => decide (p.2 = c)) := by
    have h2 := List.Sublist.filter (fun p : String × ℝ => decide (p.2 = c)) hsub
    rwa [hidem] at h2
  have hperm : List.Perm
      ((l.mergeSort fun a b => decide (b.2 ≤ a.2)).filter fun p => decide (p.2 = c))
      (l.filter fun p => decide (p.2 = c)) :=
    (List.mergeSort_perm l _).filter _
  exact (hsub2.eq_of_length hperm.length_eq.symm).symm

/-- C6: `recommend`'s score list is sorted by similarity in
non-increasing order, and documents with exactly equal similarity stay
in corpus insertion order (the similarity computation and sort are pure
functions of the catalog and query, hence deterministic). -/
theorem C6_sort_deterministic (cat : Catalog) (query : String) :
    ((sortedScoresOf (corpusOf cat) (docIdsOf cat) query).Pairwise
      fun a b => b.2 ≤ a.2)
    ∧ ∀ c : ℝ,
        ((sortedScoresOf (corpusOf cat) (docIdsOf cat) query).filter
          fun p => decide (p.2 = c))
        = (scoresOf (corpusOf cat) (docIdsOf cat) query).filter
          fun p => decide (p.2 = c) :=
  ⟨sortedScores_pairwise _ _ _,
   fun c => mergeSort_desc_stable (scoresOf (corpusOf cat) (docIdsOf cat) query) c⟩

/-! ## Claim C3: filtering versus truncation -/

/-- C3: the code slices to `top_k` *before* applying the `> 0.05`
threshold, but on the descending-sorted list this coincides with the
spec's filter-then-truncate pipeline, and at most `top_k` records are
returned. -/
theorem C3_truncation_refines_spec (cat : Catalog) (query : String) (k : ℕ) :
    recommend cat query k = recommendSpec cat query k
    ∧ ∀ rs, recommend cat query k = .ok rs → rs.length ≤ k := by
  have heq : recommend cat query k = recommendSpec cat query k := by
    rw [recommend, recommendSpec]
    by_cases h0 : queryNorm (corpusOf cat) query = 0
    · rw [if_pos h0, if_pos h0]
    · rw [if_neg h0, if_neg h0]
      rw [take_filter_sorted (0.05 : ℝ) _ k
        (sortedScores_pairwise (corpusOf cat) (docIdsOf cat) query)]
  refine ⟨heq, fun rs hrs => ?_⟩
  rw [recommend] at hrs
  by_cases h0 : queryNorm (corpusOf cat) query = 0
  · rw [if_pos h0] at hrs
    injection hrs with h2
    subst h2
    simp
  · rw [if_neg h0] at hrs
    have hlen := mapM_ok_length _ _ _ hrs
    calc rs.length
        = (((sortedScoresOf (corpusOf cat) (docIdsOf cat) query).take k).filter
            fun p => decide (p.2 > 0.05)).length := hlen
      _ ≤ ((sortedScoresOf (corpusOf cat) (docIdsOf cat) query).take k).length :=
          List.length_filter_le _ _
      _ ≤ k := List.length_take_le _ _

/-- Witness for C3 at the concrete borderline catalog. -/
theorem C3_truncation_refines_spec_witness :
    recommend cx1 "x" 3 = recommendSpec cx1 "x" 3
      ∧ ([cx1Rec] : List ResultRec).length ≤ 3 :=
  ⟨(C3_truncation_refines_spec cx1 "x" 3).1,
   (C3_truncation_refines_spec cx1 "x" 3).2 [cx1Rec] recommend_cx1⟩

end AIRec

namespace AIRec

/-! ## Claim C10: similarity lies in [0, 1] -/

theorem idfOf_nonneg (corpus : List String) (t : String) : 0 ≤ idfOf corpus t := by
  rw [idfOf]
  by_cases h : t ∈ idxKeys corpus
  · rw [if_pos h]
    apply Real.log_nonneg
    have : (0:ℝ) ≤ (corpus.length : ℝ) / ((dfCount (idxVocabs corpus) t : ℝ) + 1) :=
      div_nonneg (Nat.cast_nonneg _) (by positivity)
    linarith
  · rw [if_neg h]

theorem tfidfVec_nonneg (idf : String → ℝ) (h : ∀ t, 0 ≤ idf t)
    (tokens : List String) (t : String) : 0 ≤ tfidfVec idf tokens t :=
  mul_nonneg (div_nonneg (Nat.cast_nonneg _) (Nat.cast_nonneg _)) (h t)

theorem docVec_nonneg (corpus : List String) (d t : String) :
    0 ≤ docVec corpus d t :=
  tfidfVec_nonneg _ (idfOf_nonneg corpus) _ t

theorem queryVec_nonneg (corpus : List String) (query t : String) :
    0 ≤ queryVec corpus query t := by
  rw [queryVec]
  by_cases h : t ∈ idxKeys corpus
  · rw [if_pos h]
    exact mul_nonneg (div_nonneg (Nat.cast_nonneg _) (Nat.cast_nonneg _))
      (idfOf_nonneg corpus t)
  · rw [if_neg h]

theorem docVec_not_mem (corpus : List String) (d t : String)
    (h : t ∉ tokenize d) : docVec corpus d t = 0 := by
  rw [docVec, tfidfVec, List.count_eq_zero.2 h]
  norm_num

theorem dotProd_eq (corpus : List String) (query d : String) :
    dotProd corpus query d
      = ((qSupport corpus query).map fun t =>
          queryVec corpus query t * docVec corpus d t).sum := by
  rw [dotProd]
  congr 1
  apply List.map_congr_left
  intro t _
  by_cases h : t ∈ tokenize d
  · rw [if_pos h]
  · rw [if_neg h, docVec_not_mem corpus d t h, mul_zero]

theorem dotProd_nonneg (corpus : List String) (query d : String) :
    0 ≤ dotProd corpus query d := by
  rw [dotProd_eq]
  apply List.sum_nonneg
  intro x hx
  rcases List.mem_map.1 hx with ⟨t, _, rfl⟩
  exact mul_nonneg (queryVec_nonneg corpus query t) (docVec_nonneg corpus d t)

theorem qSupport_nodup (corpus : List String) (query : String) :
    (qSupport corpus query).Nodup :=
  (List.nodup_dedup _).filter _

/-- Cauchy–Schwarz for the recommender's dot product: it is bounded by
the product of the precomputed norms. -/
theorem dotProd_le_norms (corpus : List String) (query d : String) :
    dotProd corpus query d ≤ queryNorm corpus query * docNorm corpus d := by
  set qv := queryVec corpus query with hqv
  set dv := docVec corpus d with hdv
  set S := (qSupport corpus query).toFinset with hS
  have hnodupS := qSupport_nodup corpus query
  have hnodupD := List.nodup_dedup (tokenize d)
  have hdotF : dotProd corpus query d = ∑ t ∈ S, qv t * dv t := by
    rw [dotProd_eq, hS, List.sum_toFinset _ hnodupS]
  have hqF : vecNormSq qv (qSupport corpus query) = ∑ t ∈ S, qv t ^ 2 := by
    rw [vecNormSq, hS, List.sum_toFinset _ hnodupS]
  have hdF : vecNormSq dv (tokenize d).dedup
      = ∑ t ∈ (tokenize d).dedup.toFinset, dv t ^ 2 := by
    rw [vecNormSq, List.sum_toFinset _ hnodupD]
  have hCS := Finset.sum_mul_sq_le_sq_mul_sq S qv dv
  have hdnn := dotProd_nonneg corpus query d
  have hsub : ∑ t ∈ S, dv t ^ 2 ≤ ∑ t ∈ (tokenize d).dedup.toFinset, dv t ^ 2 := by
    have hfe : ∑ t ∈ S.filter (fun t => t ∈ tokenize d), dv t ^ 2
        = ∑ t ∈ S, dv t ^ 2 := by
      apply Finset.sum_filter_of_ne
      intro x _ hne
      by_contra hmem
      exact hne (by rw [hdv, docVec_not_mem corpus d x hmem]; norm_num)
    rw [← hfe]
    apply Finset.sum_le_sum_of_subset_of_nonneg
    · intro x hx
      rcases Finset.mem_filter.1 hx with ⟨_, hxd⟩
      exact List.mem_toFinset.2 (List.mem_dedup.2 hxd)
    · intro i _ _
      exact sq_nonneg _
  have hA : (0:ℝ) ≤ ∑ t ∈ S, qv t ^ 2 :=
    Finset.sum_nonneg fun t _ => sq_nonneg _
  have hB : (0:ℝ) ≤ ∑ t ∈ S, dv t ^ 2 :=
    Finset.sum_nonneg fun t _ => sq_nonneg _
  have hstep : dotProd corpus query d
      ≤ Real.sqrt (∑ t ∈ S, qv t ^ 2) * Real.sqrt (∑ t ∈ S, dv t ^ 2) := by
    have h1 : dotProd corpus query d
        = Real.sqrt ((dotProd corpus query d) ^ 2) := (Real.sqrt_sq hdnn).symm
    rw [h1, ← Real.sqrt_mul hA]
    apply Real.sqrt_le_sqrt
    rw [hdotF]
    exact hCS
  have hq : queryNorm corpus query = Real.sqrt (∑ t ∈ S, qv t ^ 2) := by
    rw [queryNorm, hqF]
  have hd : Real.sqrt (∑ t ∈ S, dv t ^ 2) ≤ docNorm corpus d := by
    rw [docNorm, hdF]
    exact Real.sqrt_le_sqrt hsub
  calc dotProd corpus query d
      ≤ Real.sqrt (∑ t ∈ S, qv t ^ 2) * Real.sqrt (∑ t ∈ S, dv t ^ 2) := hstep
    _ ≤ Real.sqrt (∑ t ∈ S, qv t ^ 2) * docNorm corpus d :=
        mul_le_mul_of_nonneg_left hd (Real.sqrt_nonneg _)
    _ = queryNorm corpus query * docNorm corpus d := by rw [hq]

theorem simOf_nonneg (corpus : List String) (query d : String) :
    0 ≤ simOf corpus query d := by
  rw [simOf]
  by_cases h : docNorm corpus d > 0
  · rw [if_pos h]
    exact div_nonneg (dotProd_nonneg corpus query d)
      (mul_nonneg (Real.sqrt_nonneg _) (Real.sqrt_nonneg _))
  · rw [if_neg h]

theorem simOf_le_one (corpus : List String) (query d : String) :
    simOf corpus query d ≤ 1 := by
  rw [simOf]
  by_cases h : docNorm corpus d > 0
  · rw [if_pos h]
    rcases eq_or_lt_of_le (Real.sqrt_nonneg
      (vecNormSq (queryVec corpus query) (qSupport corpus query))) with hq0 | hqpos
    · have hq0' : queryNorm corpus query = 0 := by rw [queryNorm]; exact hq0.symm
      have hdot0 : dotProd corpus query d = 0 := by
        have h1 := dotProd_le_norms corpus query d
        rw [hq0', zero_mul] at h1
        exact le_antisymm h1 (dotProd_nonneg corpus query d)
      rw [hdot0, zero_div]
      norm_num
    · have hqpos' : 0 < queryNorm corpus query := by rw [queryNorm]; exact hqpos
      rw [div_le_one (mul_pos hqpos' h)]
      exact dotProd_le_norms corpus query d
  · rw [if_neg h]
    norm_num

/-- C10: every similarity `recommend` computes lies in `[0, 1]`, and
consequently every returned record's `match_score` is at most 100. -/
theorem C10_similarity_unit_interval (cat : Catalog) (query : String) (k : ℕ) :
    (∀ p ∈ scoresOf (corpusOf cat) (docIdsOf cat) query, 0 ≤ p.2 ∧ p.2 ≤ 1)
    ∧ ∀ rs, recommend cat query k = .ok rs →
        ∀ r ∈ rs, r.match_score ≤ 100 := by
  have hscores : ∀ p ∈ scoresOf (corpusOf cat) (docIdsOf cat) query,
      0 ≤ p.2 ∧ p.2 ≤ 1 := by
    intro p hp
    rcases List.mem_map.1 hp with ⟨q, _, rfl⟩
    exact ⟨simOf_nonneg _ _ _, simOf_le_one _ _ _⟩
  refine ⟨hscores, fun rs hrs r hr => ?_⟩
  rw [recommend] at hrs
  by_cases h0 : queryNorm (corpusOf cat) query = 0
  · rw [if_pos h0] at hrs
    injection hrs with h2
    subst h2
    cases hr
  · rw [if_neg h0] at hrs
    obtain ⟨p, hp, hfmt⟩ := mapM_ok_mem _ _ _ hrs r hr
    have hp1 : p ∈ (sortedScoresOf (corpusOf cat) (docIdsOf cat) query).take k :=
      (List.mem_filter.1 hp).1
    have hp2 : p ∈ sortedScoresOf (corpusOf cat) (docIdsOf cat) query :=
      List.mem_of_mem_take hp1
    have hp3 : p ∈ scoresOf (corpusOf cat) (docIdsOf cat) query := by
      rw [sortedScoresOf] at hp2
      exact List.mem_mergeSort.1 hp2
    have hle1 := (hscores p hp3).2
    have hscore := formatResult_ok_score cat p r hfmt
    have hz : p.2 * 100 * 10 ≤ ((1000 : ℤ) : ℝ) := by push_cast; nlinarith
    have hle : pyRound (p.2 * 100 * 10) ≤ (1000 : ℤ) := pyRound_le hz
    rw [hscore, pyRound1]
    have hcast : (pyRound (p.2 * 100 * 10) : ℝ) ≤ 1000 := by exact_mod_cast hle
    linarith

/-- Witness for C10 at the borderline catalog: the similarity
`6/√14197` is in `[0,1]` and the returned score 5.0 is at most 100. -/
theorem C10_similarity_unit_interval_witness :
    (0 ≤ (6 / Real.sqrt 14197 : ℝ) ∧ (6 / Real.sqrt 14197 : ℝ) ≤ 1)
      ∧ cx1Rec.match_score ≤ 100 :=
  ⟨(C10_similarity_unit_interval cx1 "x" 3).1 ("d1", 6 / Real.sqrt 14197)
      (by rw [scores_cx1]; exact List.mem_singleton_self _),
   (C10_similarity_unit_interval cx1 "x" 3).2 [cx1Rec] recommend_cx1 cx1Rec
      (List.mem_singleton_self _)⟩

end AIRec
